import Mathlib

/-!
Shallow embedding of the Behavior-oriented Concurrency (BoC) core of
`src/homework/src/boc.rs`.

Cowns (concurrently-owned resources) are identified by their address; we model
the address `Arc::as_ptr(&self.target)` by a natural number `CownId`.  Requests
compare by that identity (`impl Ord for Request`).  Behaviors carry a sorted
list of requests and an atomic counter; the sequential structure of each
operation (`Behavior::new`, `Behavior::schedule`, `Behavior::resolve_one`,
`Request::start_enqueue`, `Request::finish_enqueue`, `Request::release` and the
`CownPtrs` trait implementations) is translated into executable Lean functions,
with the effects of atomic instructions made explicit as events or state
updates.
-/

namespace Boc

/-- Identity (address) of a cown: models `Arc::as_ptr` of the request target,
the key `impl Ord for Request` compares by. -/
abbrev CownId := Nat

/-- Identity of a behavior (the `*const Behavior` raw pointer). -/
abbrev BehId := Nat

/-- Identity of a request node (its address in the intrusive queue). -/
abbrev ReqId := Nat

/-- The shapes a `CownPtrs` collection can take, mirroring the three
`unsafe impl CownPtrs` blocks: `()`, the nested pair `(CownPtr<T>, Ts)`, and
`Vec<CownPtr<T>>`.  A handle is modelled by the identity of its cown. -/
inductive Coll where
  | unit : Coll
  | pair (c : CownId) (rest : Coll) : Coll
  | vec (cs : List CownId) : Coll
deriving DecidableEq, Repr

/-- `CownPtrs::requests` for each impl: `()` returns the empty vector; the
pair impl computes the tail requests and pushes the head request at the end;
the `Vec` impl maps each element to a request. -/
def Coll.requests : Coll → List CownId
  | .unit => []
  | .pair c rest => rest.requests ++ [c]
  | .vec cs => cs

/-- Number of handles in the collection. -/
def Coll.numHandles : Coll → Nat
  | .unit => 0
  | .pair _ rest => 1 + rest.numHandles
  | .vec cs => cs.length

/-- The shape of the reference group `CownRefs` handed to the closure; a
reference is modelled by the identity of the cown it points into. -/
inductive Refs where
  | unit : Refs
  | pair (r : CownId) (rest : Refs) : Refs
  | vec (rs : List CownId) : Refs
deriving DecidableEq, Repr

/-- `CownPtrs::get_mut` for each impl: `()` yields `()`, the pair impl yields
a reference to the head cown value paired with the tail references, and the
`Vec` impl yields one reference per element. -/
def Coll.get_mut : Coll → Refs
  | .unit => .unit
  | .pair c rest => .pair c rest.get_mut
  | .vec cs => .vec cs

/-- A behavior as built by `Behavior::new`: the sorted request list and the
`count` field (`AtomicUsize`).  The thunk is left abstract; only its
scheduling is modelled. -/
structure Behavior where
  requests : List CownId
  count : Nat
deriving DecidableEq, Repr

/-- `Behavior::new`: collect one request per handle via `cowns.requests()`,
sort them (Rust's stable `sort` by the `Ord` on requests, i.e. by cown
identity), and set `count` to `requests.len() + 1`. -/
def Behavior.new (cowns : Coll) : Behavior :=
  let requests := List.insertionSort (· ≤ ·) cowns.requests
  { requests := requests, count := requests.length + 1 }

/-- The atomic events performed by `Behavior::schedule`:
`start r` is the phase-1 call `r.start_enqueue(b)`, `finish r` the phase-2 call
`r.finish_enqueue()`, and `finalDec` the final `Behavior::resolve_one(b)`. -/
inductive Ev where
  | start (c : CownId)
  | finish (c : CownId)
  | finalDec
deriving DecidableEq, Repr

/-- Whether an event is a phase-1 start-enqueue call. -/
def Ev.isStart : Ev → Bool
  | .start _ => true
  | _ => false

/-- Whether an event is a phase-2 finish-enqueue call. -/
def Ev.isFinish : Ev → Bool
  | .finish _ => true
  | _ => false

/-- `Behavior::schedule`: the first `for` loop calls `start_enqueue` for each
request in list (= sorted) order, the second loop calls `finish_enqueue` in the
same order, then a single `Behavior::resolve_one(b)` consumes the reserved
`+1` of the counter. -/
def Behavior.schedule (b : Behavior) : List Ev :=
  b.requests.map Ev.start ++ (b.requests.map Ev.finish ++ [Ev.finalDec])

/-- One call of `Behavior::resolve_one` on a counter holding `c`:
`count.fetch_sub(1, SeqCst)` returns the old value `c` and stores `c - 1`; the
thunk is handed to the executor (`spawn`) exactly when the old value is `1`.
Result: (new counter value, whether this call schedules the thunk). -/
def resolve_one (c : Nat) : Nat × Bool :=
  (c - 1, c == 1)

/-- The results of `k` successive `resolve_one` calls starting from counter
value `c`: the i-th element records whether the i-th call scheduled the
thunk. -/
def resolveRun : Nat → Nat → List Bool
  | _, 0 => []
  | c, k + 1 => (resolve_one c).2 :: resolveRun (resolve_one c).1 k

/-- The steps of the closure spawned by the scheduling `resolve_one` call:
run the thunk, then `release` every request in the behavior's (sorted) request
list order, then the behavior `Box` is dropped. -/
inductive RunEv where
  | thunk
  | release (c : CownId)
  | destroyed
deriving DecidableEq, Repr

/-- Body of the `spawn` closure in `Behavior::resolve_one` when the thunk
returns normally: `(this.thunk)()`, then the `for` loop of releases, then the
drop of `this`. -/
def spawnBody (requests : List CownId) : List RunEv :=
  RunEv.thunk :: (requests.map RunEv.release ++ [RunEv.destroyed])

/-- Body of the `spawn` closure with the thunk's outcome made explicit:
if `(this.thunk)()` panics, the unwind leaves the closure at once — there is
no unwind guard or catch around the call, so the release `for` loop and the
drop never run on the panic path. -/
def spawnBodyE (thunkOk : Bool) (requests : List CownId) : List RunEv :=
  if thunkOk then spawnBody requests else [RunEv.thunk]

/-- The target of a release event, `none` for the other events. -/
def RunEv.releaseTarget : RunEv → Option CownId
  | .release c => some c
  | _ => none

/-- The updates `Request::start_enqueue` makes besides the swap: either a
write of `behavior` into the previous tail's `next` field (after spinning on
its `scheduled` flag), or a `resolve_one` on this behavior. -/
inductive EnqEffect where
  | grantNow : EnqEffect
  | waitPrev (p : ReqId) : EnqEffect
deriving DecidableEq, Repr

/-- `Request::start_enqueue` of request `r` on a cown whose `last` (tail)
pointer holds `tail`: one atomic `swap` installs `r` as the new tail and
returns the previous value.  If the previous tail was null the request is
granted at once via `Behavior::resolve_one` (one decrement); otherwise the
caller spins on `prev.scheduled`, then stores the behavior into `prev.next`,
and performs no decrement.
Result: (new tail, effect). -/
def start_enqueue (r : ReqId) (tail : Option ReqId) :
    Option ReqId × EnqEffect :=
  match tail with
  | none => (some r, .grantNow)
  | some p => (some r, .waitPrev p)

/-- Number of `resolve_one` decrements `start_enqueue` performs on its own
behavior's counter. -/
def EnqEffect.decrements : EnqEffect → Nat
  | .grantNow => 1
  | .waitPrev _ => 0

/-- Whether the effect records the behavior as waiter in a previous tail's
`next` pointer. -/
def EnqEffect.writesNext : EnqEffect → Option ReqId
  | .grantNow => none
  | .waitPrev p => some p

/-- `Request::finish_enqueue`: store `true` into the `scheduled` flag. -/
def finish_enqueue (_scheduled : Bool) : Bool :=
  true

/-- Outcome of `Request::release`. -/
inductive ReleaseOutcome where
  | emptied : ReleaseOutcome
  | signaled (b : BehId) : ReleaseOutcome
deriving DecidableEq, Repr

/-- `Request::release` for request `r`: `next1` is the first load of
`self.next`, `tail` the cown's `last` pointer at the CAS, and `next2` the
value of `self.next` eventually observed by the spin loop when the CAS fails
(the enqueuer that displaced `r` from the tail stores it; the spin loop in the
source waits until it is non-null).  If `next1` is null and the CAS of `last`
from `r` to null succeeds, the queue is empty and nobody is signaled;
otherwise the successor behavior read from `next` is resolved by one unit. -/
def Request.release (r : ReqId) (next1 : Option BehId) (tail : Option ReqId)
    (next2 : BehId) : ReleaseOutcome :=
  match next1 with
  | some b => .signaled b
  | none =>
    if tail = some r then .emptied
    else .signaled next2

/-- Structural-shape agreement between a collection of handles and a group of
references: same constructor at every level, and each reference points into
the cown of the corresponding handle. -/
def sameShape : Coll → Refs → Bool
  | .unit, .unit => true
  | .pair c rest, .pair r rs => c == r && sameShape rest rs
  | .vec cs, .vec rs => cs == rs
  | _, _ => false

theorem Coll.requests_length (cowns : Coll) :
    cowns.requests.length = cowns.numHandles := by
  induction cowns with
  | unit => rfl
  | pair c rest ih => simp [Coll.requests, Coll.numHandles, ih]; omega
  | vec cs => rfl

theorem Behavior.new_requests_perm (cowns : Coll) :
    ((Behavior.new cowns).requests).Perm cowns.requests :=
  List.perm_insertionSort (· ≤ ·) cowns.requests

theorem Behavior.new_requests_sorted (cowns : Coll) :
    ((Behavior.new cowns).requests).Sorted (· ≤ ·) :=
  List.sorted_insertionSort (· ≤ ·) cowns.requests

/-- C4: `Behavior::new` builds exactly one request per handle in the
collection (the sorted request list is a permutation of the per-handle
requests and has one entry per handle), sorts the requests by the identity of
their target cown, and initializes the counter to (number of requests) + 1. -/
theorem c4_behavior_new_postcondition (cowns : Coll) :
    ((Behavior.new cowns).requests).Perm cowns.requests ∧
    ((Behavior.new cowns).requests).Sorted (· ≤ ·) ∧
    (Behavior.new cowns).requests.length = cowns.numHandles ∧
    (Behavior.new cowns).count = (Behavior.new cowns).requests.length + 1 := by
  refine ⟨Behavior.new_requests_perm cowns, Behavior.new_requests_sorted cowns, ?_, rfl⟩
  rw [(Behavior.new_requests_perm cowns).length_eq, Coll.requests_length]

/-- C9: the collection abstraction supports the empty group (zero requests),
nested-pair heterogeneous groups (one request per handle), and homogeneous
variable-length groups as a list of handles (one request per element); and
`get_mut` produces one reference per handle in the same structural shape as
the handles were provided. -/
theorem c9_collection_protocol_shape (cowns : Coll) :
    sameShape cowns cowns.get_mut = true ∧
    cowns.requests.length = cowns.numHandles ∧
    Coll.unit.requests = [] ∧
    (∀ c rest, (Coll.pair c rest).requests.length = rest.requests.length + 1) ∧
    (∀ cs, (Coll.vec cs).requests = cs) := by
  refine ⟨?_, Coll.requests_length cowns, rfl, ?_, fun _ => rfl⟩
  · induction cowns with
    | unit => rfl
    | pair c rest ih => simp [Coll.get_mut, sameShape, ih]
    | vec cs => simp [Coll.get_mut, sameShape]
  · intro c rest
    simp [Coll.requests]

theorem Behavior.schedule_take (b : Behavior) :
    b.schedule.take b.requests.length = b.requests.map Ev.start := by
  simp [Behavior.schedule, List.take_append]

theorem Behavior.schedule_drop_take (b : Behavior) :
    (b.schedule.drop b.requests.length).take b.requests.length
      = b.requests.map Ev.finish := by
  simp [Behavior.schedule, List.drop_append, List.take_append]

theorem Behavior.schedule_count_finalDec (b : Behavior) :
    b.schedule.count Ev.finalDec = 1 := by
  simp [Behavior.schedule, List.count_append]
  have h1 : List.count Ev.finalDec (List.map Ev.start b.requests) = 0 := by
    rw [List.count_eq_zero]; simp
  have h2 : List.count Ev.finalDec (List.map Ev.finish b.requests) = 0 := by
    rw [List.count_eq_zero]; simp
  omega

theorem Behavior.schedule_getLast (b : Behavior) :
    b.schedule.getLast? = some Ev.finalDec := by
  have h : b.schedule
      = (b.requests.map Ev.start ++ b.requests.map Ev.finish) ++ [Ev.finalDec] := by
    simp [Behavior.schedule]
  rw [h, List.getLast?_concat]

theorem Behavior.schedule_start_lt (b : Behavior) (i : Nat)
    (hi : i < b.schedule.length)
    (hs : (b.schedule.get ⟨i, hi⟩).isStart = true) : i < b.requests.length := by
  by_contra h
  push_neg at h
  have hlen : (List.map Ev.start b.requests).length ≤ i := by simpa using h
  have hb : i - (List.map Ev.start b.requests).length
      < (List.map Ev.finish b.requests ++ [Ev.finalDec]).length := by
    simp [Behavior.schedule] at hi ⊢; omega
  have heq : b.schedule.get ⟨i, hi⟩
      = (List.map Ev.finish b.requests
          ++ [Ev.finalDec])[i - (List.map Ev.start b.requests).length] := by
    simp only [List.get_eq_getElem, Behavior.schedule]
    rw [List.getElem_append_right hlen]
  rw [heq] at hs
  have hmem := List.getElem_mem hb
  rcases List.mem_append.mp hmem with hm | hm
  · obtain ⟨x, -, hx⟩ := List.mem_map.mp hm
    rw [← hx] at hs
    simp [Ev.isStart] at hs
  · simp only [List.mem_singleton] at hm
    rw [hm] at hs
    simp [Ev.isStart] at hs

theorem Behavior.schedule_finish_ge (b : Behavior) (j : Nat)
    (hj : j < b.schedule.length)
    (hf : (b.schedule.get ⟨j, hj⟩).isFinish = true) : b.requests.length ≤ j := by
  by_contra h
  push_neg at h
  have hb : j < (List.map Ev.start b.requests).length := by simpa using h
  have heq : b.schedule.get ⟨j, hj⟩ = (List.map Ev.start b.requests)[j] := by
    simp only [List.get_eq_getElem, Behavior.schedule]
    rw [List.getElem_append_left]
  rw [heq, List.getElem_map] at hf
  simp [Ev.isFinish] at hf

/-- C3: in `Behavior::schedule`, every phase-1 start-enqueue call precedes
every phase-2 finish-enqueue call; phase 1 makes one call per request in
sorted order and phase 2 likewise sets the ready flags in sorted order; and
exactly one final decrement is issued, as the very last event, after phase 2
has completed for all requests. -/
theorem c3_schedule_two_phase (cowns : Coll) (i j : Nat)
    (hi : i < ((Behavior.new cowns).schedule).length)
    (hj : j < ((Behavior.new cowns).schedule).length)
    (hs : (((Behavior.new cowns).schedule).get ⟨i, hi⟩).isStart = true)
    (hf : (((Behavior.new cowns).schedule).get ⟨j, hj⟩).isFinish = true) :
    i < j ∧
    ((Behavior.new cowns).schedule).take ((Behavior.new cowns).requests).length
      = ((Behavior.new cowns).requests).map Ev.start ∧
    (((Behavior.new cowns).schedule).drop
        ((Behavior.new cowns).requests).length).take
        ((Behavior.new cowns).requests).length
      = ((Behavior.new cowns).requests).map Ev.finish ∧
    ((Behavior.new cowns).requests).Sorted (· ≤ ·) ∧
    ((Behavior.new cowns).schedule).count Ev.finalDec = 1 ∧
    ((Behavior.new cowns).schedule).getLast? = some Ev.finalDec :=
  ⟨lt_of_lt_of_le (Behavior.schedule_start_lt _ i hi hs)
      (Behavior.schedule_finish_ge _ j hj hf),
   Behavior.schedule_take _, Behavior.schedule_drop_take _,
   Behavior.new_requests_sorted cowns, Behavior.schedule_count_finalDec _,
   Behavior.schedule_getLast _⟩

/-- Concrete instantiation of `c3_schedule_two_phase`: a behavior on the two
cowns 1 and 2, whose schedule trace is
`[start 1, start 2, finish 1, finish 2, finalDec]`; position 0 is a start and
position 2 a finish. -/
theorem c3_schedule_two_phase_witness :
    (0 : Nat) < 2 ∧
    ((Behavior.new (Coll.pair 2 (Coll.pair 1 Coll.unit))).schedule).count
      Ev.finalDec = 1 :=
  ⟨(c3_schedule_two_phase (Coll.pair 2 (Coll.pair 1 Coll.unit)) 0 2 (by decide)
      (by decide) (by decide) (by decide)).1,
   (c3_schedule_two_phase (Coll.pair 2 (Coll.pair 1 Coll.unit)) 0 2 (by decide)
      (by decide) (by decide) (by decide)).2.2.2.2.1⟩

/-- C10: `run_when` with the empty collection `()` builds a behavior with zero
requests and counter 1; `schedule` performs no enqueue (its trace is the
single final decrement), that decrement observes the counter transition from
1 to 0 and schedules the thunk, the spawned closure runs the thunk once and
releases nothing (no resource queue is touched). -/
theorem c10_empty_group_runs_once :
    (Behavior.new Coll.unit).requests = [] ∧
    (Behavior.new Coll.unit).count = 1 ∧
    (Behavior.new Coll.unit).schedule = [Ev.finalDec] ∧
    ((Behavior.new Coll.unit).schedule.filter Ev.isStart = [] ∧
      (Behavior.new Coll.unit).schedule.filter Ev.isFinish = []) ∧
    resolve_one 1 = (0, true) ∧
    resolveRun 1 1 = [true] ∧
    (spawnBody (Behavior.new Coll.unit).requests).count RunEv.thunk = 1 ∧
    (spawnBody (Behavior.new Coll.unit).requests).filterMap RunEv.releaseTarget
      = [] := by
  decide

/-- C8 counterexample: construction does not reject duplicate resource
identities.  On the group `(c, (c, ()))` — two handles to the same cown 5 —
`Behavior::new` proceeds normally, building both requests and counter 3,
rather than rejecting the group. -/
theorem c8_counterexample_duplicates_accepted :
    (Behavior.new (Coll.pair 5 (Coll.pair 5 Coll.unit))).requests = [5, 5] ∧
    (Behavior.new (Coll.pair 5 (Coll.pair 5 Coll.unit))).count = 3 := by
  decide

/-- C8 amended: `Behavior::new` performs no duplicate check — a group holding
two handles to the same cown is constructed normally, both duplicate requests
retained in the behavior's request list. -/
theorem c8_amended_duplicates_retained (x : CownId) (rest : Coll) :
    2 ≤ ((Behavior.new (Coll.pair x (Coll.pair x rest))).requests).count x := by
  rw [(Behavior.new_requests_perm (Coll.pair x (Coll.pair x rest))).count_eq]
  simp [Coll.requests]

theorem resolveRun_spec (c0 : Nat) (h : 1 ≤ c0) :
    resolveRun c0 c0 = List.replicate (c0 - 1) false ++ [true] := by
  induction c0 with
  | zero => omega
  | succ k ih =>
    rcases Nat.eq_zero_or_pos k with hk | hk
    · subst hk; rfl
    · have hkk := ih hk
      have h1 : resolveRun (k + 1) (k + 1)
          = (resolve_one (k + 1)).2 :: resolveRun (resolve_one (k + 1)).1 k := rfl
      have h2 : (resolve_one (k + 1)).1 = k := rfl
      have h3 : (resolve_one (k + 1)).2 = false := by
        simp [resolve_one]
        omega
      rw [h1, h2, h3, hkk]
      have h4 : k - 1 + 1 = k := by omega
      rw [Nat.add_sub_cancel, ← h4, List.replicate_succ]
      simp

theorem spawnBody_releases (rs : List CownId) :
    (spawnBody rs).filterMap RunEv.releaseTarget = rs := by
  simp [spawnBody, RunEv.releaseTarget, List.filterMap_cons, List.filterMap_append,
    List.filterMap_map]
  have h : (fun c => RunEv.releaseTarget (RunEv.release c)) = some := rfl
  simp [Function.comp_def, RunEv.releaseTarget]

theorem spawnBody_getLast (rs : List CownId) :
    (spawnBody rs).getLast? = some RunEv.destroyed := by
  have h : spawnBody rs
      = (RunEv.thunk :: rs.map RunEv.release) ++ [RunEv.destroyed] := by
    simp [spawnBody]
  rw [h, List.getLast?_concat]

/-- C2: every `resolve_one` call is a single fetch-and-decrement (new value =
old value - 1); the call schedules the thunk exactly when it observes the old
value 1 (the 1 to 0 transition); over the full run of `count`-many calls,
exactly one call — the last — schedules; and the spawned closure runs the
thunk, then releases every request in the behavior's sorted request order,
and is destroyed at the very end. -/
theorem c2_resolve_one_exactly_once (c0 : Nat) (h : 1 ≤ c0) (cowns : Coll) :
    resolveRun c0 c0 = List.replicate (c0 - 1) false ++ [true] ∧
    (∀ c, (resolve_one c).1 = c - 1) ∧
    (∀ c, (resolve_one c).2 = true ↔ c = 1) ∧
    (resolveRun c0 c0).count true = 1 ∧
    (spawnBody (Behavior.new cowns).requests).head? = some RunEv.thunk ∧
    (spawnBody (Behavior.new cowns).requests).filterMap RunEv.releaseTarget
      = (Behavior.new cowns).requests ∧
    ((Behavior.new cowns).requests).Sorted (· ≤ ·) ∧
    (spawnBody (Behavior.new cowns).requests).getLast? = some RunEv.destroyed := by
  refine ⟨resolveRun_spec c0 h, fun c => rfl, fun c => by simp [resolve_one], ?_,
    rfl, spawnBody_releases _, Behavior.new_requests_sorted cowns,
    spawnBody_getLast _⟩
  rw [resolveRun_spec c0 h]
  simp [List.count_append, List.count_replicate]

/-- Concrete instantiation of `c2_resolve_one_exactly_once`: with counter 3,
only the third call (which observes old value 1) schedules the thunk. -/
theorem c2_resolve_one_exactly_once_witness :
    1 ≤ 3 ∧ resolveRun 3 3 = List.replicate 2 false ++ [true] :=
  ⟨by decide, (c2_resolve_one_exactly_once 3 (by decide) (Coll.vec [4, 2])).1⟩

/-- C5: `start_enqueue` installs the request as the new tail in the one
atomic swap; when the previous tail was null the request is granted at once
via exactly one counter decrement and no next-pointer write; when a previous
tail `P` existed the caller records the behavior in `P.next` (after waiting
for `P`'s scheduled flag) and performs no decrement. -/
theorem c5_start_enqueue_spec (r : ReqId) (tail : Option ReqId) :
    (start_enqueue r tail).1 = some r ∧
    (tail = none →
      (start_enqueue r tail).2 = EnqEffect.grantNow ∧
      ((start_enqueue r tail).2).decrements = 1 ∧
      ((start_enqueue r tail).2).writesNext = none) ∧
    (∀ p, tail = some p →
      (start_enqueue r tail).2 = EnqEffect.waitPrev p ∧
      ((start_enqueue r tail).2).decrements = 0 ∧
      ((start_enqueue r tail).2).writesNext = some p) := by
  cases tail <;>
    simp [start_enqueue, EnqEffect.decrements, EnqEffect.writesNext]

/-- Concrete instantiation of `c5_start_enqueue_spec`: an empty-tail enqueue
is granted now; one with previous tail 7 waits on request 7. -/
theorem c5_start_enqueue_witness :
    (start_enqueue 0 none).2 = EnqEffect.grantNow ∧
    (start_enqueue 3 (some 7)).2 = EnqEffect.waitPrev 7 :=
  ⟨((c5_start_enqueue_spec 0 none).2.1 rfl).1,
   ((c5_start_enqueue_spec 3 (some 7)).2.2 7 rfl).1⟩

/-- C6: `release` ends in the queue-emptied outcome exactly when `next` was
null and the CAS of the tail from this request to null succeeds (the tail
still pointed at it); when `next` was already set, exactly that successor is
signaled; when the CAS fails, the successor eventually observed in `next` is
signaled; one of the two outcomes always occurs, and never both. -/
theorem c6_release_no_missed_wakeups (r : ReqId) (next1 : Option BehId)
    (tail : Option ReqId) (next2 : BehId) :
    (Request.release r next1 tail next2 = ReleaseOutcome.emptied
      ↔ next1 = none ∧ tail = some r) ∧
    (∀ b, next1 = some b →
      Request.release r next1 tail next2 = ReleaseOutcome.signaled b) ∧
    (next1 = none → tail ≠ some r →
      Request.release r next1 tail next2 = ReleaseOutcome.signaled next2) ∧
    (Request.release r next1 tail next2 = ReleaseOutcome.emptied ∨
      ∃ b, Request.release r next1 tail next2 = ReleaseOutcome.signaled b) ∧
    ¬(Request.release r next1 tail next2 = ReleaseOutcome.emptied ∧
      ∃ b, Request.release r next1 tail next2 = ReleaseOutcome.signaled b) := by
  cases next1 with
  | none =>
    simp only [Request.release]
    split <;> simp_all
  | some b => simp [Request.release]

/-- Concrete instantiation of `c6_release_no_missed_wakeups`: request 4 with
null `next` but a displaced tail signals the eventually-observed successor
11. -/
theorem c6_release_witness :
    Request.release 4 none (some 9) 11 = ReleaseOutcome.signaled 11 :=
  (c6_release_no_missed_wakeups 4 none (some 9) 11).2.2.1 rfl (by decide)

/-- C7: evaluation at the failing input.  The spawned closure body in
`Behavior::resolve_one` has no unwind protection: when the thunk panics
(`thunkOk = false`), a behavior holding cown 0 performs no release at all —
the release chain is skipped — whereas on the normal path the release for
cown 0 runs. -/
theorem c7_panic_skips_release_chain :
    (spawnBodyE false [0]).filterMap RunEv.releaseTarget = [] ∧
    (spawnBodyE false [0]).count (RunEv.release 0) = 0 ∧
    (spawnBodyE true [0]).filterMap RunEv.releaseTarget = [0] := by
  decide

end Boc
